import Mathlib

/-!
Verification of the core logic of `hydra_universal_remote`:

* `src/device/flipper_protocol.py` — the RPC wire codec (`encode_message` /
  `decode_message`), the command-id sequence, and the session state
  (`_responses` pending table, `_events` queue, `send_command`,
  `handle_response`, `handle_event`);
* `src/device/subghz.py` — the Sub-GHz registry
  (`get_protocols_for_frequency`), the signal analyzer (`extract_pulses`,
  `detect_bit_rate`, `decode_manchester`) and `SubGHzSignal.analyze`.

Modelling conventions of the shallow embedding:

* Python `bytes` values are `List Nat` (each entry one byte); Python strings
  that the code only ever passes through `str.encode('utf-8')` /
  `bytes.decode('utf-8')` (the `command` field) are likewise modelled by
  their byte sequences, UTF-8 being a bijection between strings and valid
  UTF-8 byte sequences.  `bytes.decode('utf-8')` on the command section can
  raise `UnicodeDecodeError` (a `ValueError`, so caught and re-raised as
  `FlipperProtocolError`); `validUtf8` models the strict decoder's
  acceptance condition byte-exactly (RFC 3629 table: continuation ranges,
  no overlongs, no surrogates, max U+10FFFF).
* `json.dumps` / `json.loads` are external library calls; the codec is
  parameterised over the args type `A` together with a pair
  `dumps : A → List Nat`, `loads : List Nat → Option A` standing for them.
* Python floats are modelled as rationals.  Every concrete comparison a
  settled claim depends on is exact in IEEE double arithmetic as well
  (`0.2 * 10 == 2.0`, `0.5`, `0.1`, the integral sample amplitudes), so the
  rational model agrees with the float execution at those inputs.
* `asyncio` state is modelled by explicit state passing: the result of
  awaiting a pending future inside `send_command` becomes an explicit
  `Outcome` argument, and each method maps a `ProtoState` to a new one.
-/

namespace Hydra

/-- `MessageType` enum of `flipper_protocol.py` (COMMAND=0, RESPONSE=1,
EVENT=2, ERROR=3). -/
inductive MessageType where
  | COMMAND
  | RESPONSE
  | EVENT
  | ERROR
deriving DecidableEq, Repr

/-- `MessageType.value`: the integer value of each enum member. -/
def MessageType.value : MessageType → Nat
  | .COMMAND => 0
  | .RESPONSE => 1
  | .EVENT => 2
  | .ERROR => 3

/-- `MessageType(n)` construction: `some` member on 0..3, failure
(`ValueError`) otherwise. -/
def MessageType.ofValue : Nat → Option MessageType
  | 0 => some .COMMAND
  | 1 => some .RESPONSE
  | 2 => some .EVENT
  | 3 => some .ERROR
  | _ => none

/-- `RPCMessage` dataclass.  `command` holds the UTF-8 bytes of the command
string; `args` is the (unserialised) args object of type `A`; `data` is the
optional binary payload. -/
structure RPCMessage (A : Type) where
  type : MessageType
  command_id : Nat
  command : List Nat
  args : A
  data : Option (List Nat)
deriving DecidableEq, Repr

/-- Big-endian 4-byte encoding of one `>I` field of `struct.pack`. -/
def packU32 (n : Nat) : List Nat :=
  [n / 16777216 % 256, n / 65536 % 256, n / 256 % 256, n % 256]

/-- Big-endian reassembly of one `>I` field of `struct.unpack`. -/
def unpackU32 (b0 b1 b2 b3 : Nat) : Nat :=
  ((b0 * 256 + b1) * 256 + b2) * 256 + b3

/-- `FlipperProtocol.encode_message`.  The header packs five big-endian
fields `>BIIII`; `struct.pack` raises (modelled as `Except.error`) when a
`>I` field does not fit an unsigned 32-bit integer.  `msg.data or b''`
replaces an absent or empty payload by the empty byte string. -/
def encodeMessage (dumps : A → List Nat) (msg : RPCMessage A) :
    Except String (List Nat) :=
  let command_bytes := msg.command
  let args_bytes := dumps msg.args
  let data_bytes := msg.data.getD []
  if msg.command_id < 4294967296 ∧ command_bytes.length < 4294967296 ∧
      args_bytes.length < 4294967296 ∧ data_bytes.length < 4294967296 then
    Except.ok (msg.type.value ::
      (packU32 msg.command_id ++ packU32 command_bytes.length ++
       packU32 args_bytes.length ++ packU32 data_bytes.length ++
       command_bytes ++ args_bytes ++ data_bytes))
  else
    Except.error "struct.error: argument out of range"

/-- Is `c` a UTF-8 continuation byte (`0x80..0xBF`)? -/
def utf8Cont (c : Nat) : Bool :=
  decide (128 ≤ c ∧ c ≤ 191)

/-- Acceptance condition of Python's strict `bytes.decode('utf-8')`,
byte-exact per RFC 3629: ASCII; `C2..DF` + 1 continuation; `E0` with first
continuation `A0..BF` (no overlongs); `E1..EC`, `EE..EF` + 2 continuations;
`ED` with first continuation `80..9F` (no surrogates); `F0` with first
continuation `90..BF`; `F1..F3` + 3 continuations; `F4` with first
continuation `80..8F` (max U+10FFFF); everything else (`80..C1`,
`F5..FF`, short sequences) rejected. -/
def validUtf8 : List Nat → Bool
  | [] => true
  | b :: rest =>
    if b ≤ 127 then validUtf8 rest
    else if 194 ≤ b ∧ b ≤ 223 then
      match rest with
      | c1 :: rest1 => utf8Cont c1 && validUtf8 rest1
      | [] => false
    else if b = 224 then
      match rest with
      | c1 :: c2 :: rest2 =>
        decide (160 ≤ c1 ∧ c1 ≤ 191) && utf8Cont c2 && validUtf8 rest2
      | _ => false
    else if (225 ≤ b ∧ b ≤ 236) ∨ b = 238 ∨ b = 239 then
      match rest with
      | c1 :: c2 :: rest2 => utf8Cont c1 && utf8Cont c2 && validUtf8 rest2
      | _ => false
    else if b = 237 then
      match rest with
      | c1 :: c2 :: rest2 =>
        decide (128 ≤ c1 ∧ c1 ≤ 159) && utf8Cont c2 && validUtf8 rest2
      | _ => false
    else if b = 240 then
      match rest with
      | c1 :: c2 :: c3 :: rest3 =>
        decide (144 ≤ c1 ∧ c1 ≤ 191) && utf8Cont c2 && utf8Cont c3 &&
          validUtf8 rest3
      | _ => false
    else if 241 ≤ b ∧ b ≤ 243 then
      match rest with
      | c1 :: c2 :: c3 :: rest3 =>
        utf8Cont c1 && utf8Cont c2 && utf8Cont c3 && validUtf8 rest3
      | _ => false
    else if b = 244 then
      match rest with
      | c1 :: c2 :: c3 :: rest3 =>
        decide (128 ≤ c1 ∧ c1 ≤ 143) && utf8Cont c2 && utf8Cont c3 &&
          validUtf8 rest3
      | _ => false
    else false

/-- `FlipperProtocol.decode_message`.  Fewer than the 17 header bytes raises
`FlipperProtocolError("Message too short")`; the three sections are Python
slices `data[offset:offset+length]`, which silently clip to the available
bytes.  Failures then follow the source's statement order: the command
slice is decoded as UTF-8 first (`UnicodeDecodeError` is a `ValueError`,
caught and re-raised as `FlipperProtocolError` — modelled by the
`validUtf8` guard); then the args slice — empty yields the empty mapping
(`emptyArgs`), non-empty goes through `.decode('utf-8')` plus `json.loads`,
both failure stages folded into `loads` returning `none`; the data slice is
taken only when `data_len > 0`, else `data` is `None`; last,
`MessageType(msg_type)` raises `ValueError` on an unknown type byte. -/
def decodeMessage (loads : List Nat → Option A) (emptyArgs : A) :
    List Nat → Except String (RPCMessage A)
  | b0 :: b1 :: b2 :: b3 :: b4 :: b5 :: b6 :: b7 :: b8 :: b9 :: b10 :: b11 ::
      b12 :: b13 :: b14 :: b15 :: b16 :: rest =>
    let cmd_id := unpackU32 b1 b2 b3 b4
    let cmd_len := unpackU32 b5 b6 b7 b8
    let args_len := unpackU32 b9 b10 b11 b12
    let data_len := unpackU32 b13 b14 b15 b16
    let command := rest.take cmd_len
    if validUtf8 command then
      let args_bytes := (rest.drop cmd_len).take args_len
      match (if args_bytes.isEmpty then some emptyArgs else loads args_bytes) with
      | none => Except.error "Failed to decode message: invalid args json"
      | some args =>
        let msg_data := if 0 < data_len then
            some (((rest.drop cmd_len).drop args_len).take data_len)
          else none
        match MessageType.ofValue b0 with
        | none => Except.error "Failed to decode message: invalid message type"
        | some t => Except.ok ⟨t, cmd_id, command, args, msg_data⟩
    else
      Except.error "Failed to decode message: invalid utf-8 in command"
  | _ => Except.error "Message too short"

/-- Trivial concrete args instantiation used for concrete evaluations: the
only value serialises to the two bytes of `"{}"` (an empty JSON object). -/
def dumpsUnit : Unit → List Nat := fun _ => [123, 125]

/-- Deserialiser matching `dumpsUnit`. -/
def loadsUnit : List Nat → Option Unit := fun bs =>
  if bs = [123, 125] then some () else none

theorem unpackU32_packU32 {n : Nat} (h : n < 4294967296) :
    unpackU32 (n / 16777216 % 256) (n / 65536 % 256) (n / 256 % 256) (n % 256) = n := by
  unfold unpackU32
  omega

theorem MessageType.ofValue_value (t : MessageType) :
    MessageType.ofValue t.value = some t := by
  cases t <;> rfl

/-- Concrete message whose `data` is the empty byte string `b''`. -/
def msgEmptyData : RPCMessage Unit :=
  ⟨.RESPONSE, 42, [112, 105, 110, 103], (), some []⟩

/-- Concrete message with a non-empty `data` payload. -/
def msgRound : RPCMessage Unit :=
  ⟨.RESPONSE, 42, [112, 105, 110, 103], (), some [1, 2, 3]⟩

/-- C1 counterexample: the round-trip law fails on a well-formed message
whose `data` is the empty byte string.  `encode_message` writes `data_len = 0`
(`msg.data or b''`), and `decode_message` maps `data_len = 0` back to `None`,
so decoding the encoding of `msgEmptyData` returns the message with
`data = none`, which differs from `msgEmptyData` (`data = some []`). -/
theorem C1_roundtrip_counterexample :
    (encodeMessage dumpsUnit msgEmptyData).bind (decodeMessage loadsUnit ()) =
      Except.ok ⟨.RESPONSE, 42, [112, 105, 110, 103], (), none⟩ ∧
    (⟨.RESPONSE, 42, [112, 105, 110, 103], (), none⟩ : RPCMessage Unit) ≠
      msgEmptyData :=
  ⟨by rfl, by decide⟩

/-- C1 (amended): for every well-formed `RPCMessage` whose command bytes are
the UTF-8 encoding of the command string (hence accepted by the strict
decoder), whose args serialize to a non-empty byte string that deserializes
back (`json.dumps`/`json.loads` round-trip, `json.dumps` output is never
empty), whose numeric fields fit the `>I` header fields, and whose `data`
is NOT the empty byte string (it may be `none` or non-empty), decoding the
bytes produced by encoding yields the original message: same type,
command_id, command bytes, args and data. -/
theorem C1_roundtrip_amended (A : Type) (dumps : A → List Nat)
    (loads : List Nat → Option A) (emptyArgs : A) (m : RPCMessage A)
    (hid : m.command_id < 4294967296)
    (hc : m.command.length < 4294967296)
    (ha : (dumps m.args).length < 4294967296)
    (hd : (m.data.getD []).length < 4294967296)
    (hutf : validUtf8 m.command = true)
    (hne : dumps m.args ≠ [])
    (hrt : loads (dumps m.args) = some m.args)
    (hdata : m.data ≠ some []) :
    (encodeMessage dumps m).bind (decodeMessage loads emptyArgs) =
      Except.ok m := by
  obtain ⟨t, id, cmd, args, data⟩ := m
  simp only [encodeMessage] at hid hc ha hd hutf hne hrt hdata ⊢
  rw [if_pos ⟨hid, hc, ha, hd⟩]
  simp only [Except.bind, packU32, List.cons_append, List.nil_append,
    List.append_assoc]
  simp only [decodeMessage, MessageType.ofValue_value,
    unpackU32_packU32 hid, unpackU32_packU32 hc, unpackU32_packU32 ha,
    unpackU32_packU32 hd]
  rw [List.take_left, List.drop_left, List.take_left, List.drop_left, hutf]
  have hemp : (dumps args).isEmpty = false := by
    cases hdumps : dumps args with
    | nil => exact absurd hdumps hne
    | cons x xs => rfl
  rw [if_pos rfl, hemp]
  simp only [Bool.false_eq_true, if_false, hrt]
  cases data with
  | none => simp
  | some d =>
    have hdne : d ≠ [] := fun h => hdata (by rw [h])
    have : 0 < d.length := List.length_pos.mpr hdne
    simp [this, List.take_length]

/-- C1 witness: the amended round-trip law at a concrete message with a
non-empty data payload. -/
theorem C1_roundtrip_witness :
    (encodeMessage dumpsUnit msgRound).bind (decodeMessage loadsUnit ()) =
      Except.ok msgRound :=
  C1_roundtrip_amended Unit dumpsUnit loadsUnit () msgRound (by decide)
    (by decide) (by decide) (by decide) (by decide) (by decide) (by decide)
    (by decide)

/-- `FlipperProtocol._get_next_command_id` on the `command_id` counter:
`self.command_id = (self.command_id + 1) % 0xFFFFFFFF`.  Note the modulus is
the literal `0xFFFFFFFF = 4294967295 = 2^32 - 1`, not `2^32`. -/
def nextCommandId (c : Nat) : Nat :=
  (c + 1) % 0xFFFFFFFF

/-- The counter value after `n` calls to `_get_next_command_id`, starting
from the constructor's `self.command_id = 0`.  Since the method returns the
updated counter, this is also the `n`-th allocated command id. -/
def commandIdAfter : Nat → Nat
  | 0 => 0
  | n + 1 => nextCommandId (commandIdAfter n)

/-- `FlipperProtocol` mutable state: the `command_id` counter, the
`_responses` pending table (keyed by command id, value `none` while the
future is unresolved and `some msg` once `set_result(msg)` ran), and the
`_events` FIFO.  `_callbacks` is untouched by the modelled methods and
omitted. -/
structure ProtoState (A : Type) where
  command_id : Nat
  responses : List (Nat × Option (RPCMessage A))
  events : List (RPCMessage A)
deriving DecidableEq, Repr

/-- `FlipperProtocol.handle_response`: when `message.command_id` is a key of
`_responses` and its future is not yet done, resolve the future with the
message; in every other case — including a command id with no pending
entry — the state is untouched (the message is dropped; nothing is appended
to `_events`). -/
def handleResponse (st : ProtoState A) (message : RPCMessage A) :
    ProtoState A :=
  match st.responses.lookup message.command_id with
  | some none =>
    { st with
      responses := st.responses.map fun e =>
        if e.1 = message.command_id then (e.1, some message) else e }
  | some (some _) => st
  | none => st

/-- `FlipperProtocol.handle_event`: `self._events.put_nowait(message)`. -/
def handleEvent (st : ProtoState A) (message : RPCMessage A) : ProtoState A :=
  { st with events := st.events ++ [message] }

/-- The result of `await asyncio.wait_for(future, timeout)` inside
`send_command`: either the future was resolved with a message (by
`handle_response`) or the timeout elapsed. -/
inductive Outcome (A : Type) where
  | resolved (response : RPCMessage A)
  | timeout
deriving DecidableEq, Repr

/-- The failure modes `send_command` can raise: `FlipperProtocolError` on a
resolution of kind ERROR (the spec's `RemoteCommandFailed`) and
`asyncio.TimeoutError` (the spec's `ResponseTimeout`). -/
inductive SendError where
  | commandFailed
  | responseTimeout
deriving DecidableEq, Repr

/-- `FlipperProtocol.send_command`, with the suspension on the response
future made explicit through `outcome`: allocate the next command id,
register a fresh unresolved future under it (`self._responses[cmd_id] =
future`; a dict assignment overwrites, modelled by filtering any stale entry
out first), then either return the resolved Response, raise on a resolved
ERROR, or raise on timeout — in all cases running the `finally` block
`self._responses.pop(cmd_id, None)`, which removes the entry. -/
def sendCommand (st : ProtoState A) (outcome : Outcome A) :
    Except SendError (RPCMessage A) × ProtoState A :=
  let cmd_id := nextCommandId st.command_id
  let registered : List (Nat × Option (RPCMessage A)) :=
    (cmd_id, none) :: st.responses.filter fun e => e.1 ≠ cmd_id
  let popped := registered.filter fun e => e.1 ≠ cmd_id
  match outcome with
  | .timeout =>
    (Except.error .responseTimeout,
     { st with command_id := cmd_id, responses := popped })
  | .resolved response =>
    if response.type = .ERROR then
      (Except.error .commandFailed,
       { st with command_id := cmd_id, responses := popped })
    else
      (Except.ok response,
       { st with command_id := cmd_id, responses := popped })

/-- Concrete session state with one pending id (3) for witnesses. -/
def stOnePending : ProtoState Unit := ⟨0, [(3, none)], []⟩

/-- Concrete Response message with command id 5 (no pending entry). -/
def msgStale : RPCMessage Unit := ⟨.RESPONSE, 5, [], (), none⟩

/-- C2 counterexample: a Response whose command id (5) has no entry in the
pending table is NOT appended to the event queue — `handle_response` leaves
the whole state (events included) unchanged, so `next_event` can never
return it: the message is silently dropped. -/
theorem C2_unmatched_response_counterexample :
    handleResponse (⟨0, [], []⟩ : ProtoState Unit) msgStale =
      (⟨0, [], []⟩ : ProtoState Unit) ∧
    (handleResponse (⟨0, [], []⟩ : ProtoState Unit) msgStale).events = [] := by
  decide

/-- C2 (amended): a received message of kind Response or Error whose
command id has no entry in the pending table leaves the session state
unchanged: it is silently dropped by `handle_response`, never appended to
the event queue (only `handle_event` appends to `_events`). -/
theorem C2_unmatched_response_amended (A : Type) (st : ProtoState A)
    (message : RPCMessage A)
    (h : st.responses.lookup message.command_id = none) :
    handleResponse st message = st := by
  unfold handleResponse
  rw [h]

/-- C2 witness: the amended statement at a state whose only pending id (3)
differs from the message's id (5). -/
theorem C2_unmatched_response_witness :
    handleResponse stOnePending msgStale = stOnePending :=
  C2_unmatched_response_amended Unit stOnePending msgStale (by decide)

/-- C3: the command-id counter increments modulo `0xFFFFFFFF = 2^32 - 1`,
not modulo `2^32`: the n-th allocated id is `n % (2^32 - 1)`, the value
`0xFFFFFFFF` is never allocated by any state, and the allocation after id
`0xFFFFFFFE` yields 0 — diverging from the claimed wrap
`0xFFFFFFFF → 0`. -/
theorem C3_command_id_modulus :
    nextCommandId 0xFFFFFFFE = 0 ∧
    (∀ s : Nat, nextCommandId s ≠ 0xFFFFFFFF) ∧
    (∀ n : Nat, commandIdAfter n = n % 0xFFFFFFFF) := by
  refine ⟨by decide, fun s => ?_, fun n => ?_⟩
  · exact Nat.ne_of_lt (Nat.mod_lt _ (by decide))
  · induction n with
    | zero => rfl
    | succ k ih =>
      show nextCommandId (commandIdAfter k) = _
      rw [ih]
      unfold nextCommandId
      omega

/-- C7: `send_command` removes the pending entry registered under the
allocated command id on every exit path: the state returned for each of the
three outcomes — Response resolution (normal return), ERROR resolution
(`FlipperProtocolError`, the spec's `RemoteCommandFailed`), and timeout
(`asyncio.TimeoutError`, the spec's `ResponseTimeout`) — has no `_responses`
entry under that id, thanks to the `finally: self._responses.pop(cmd_id,
None)`. -/
theorem C7_pending_always_removed (A : Type) (st : ProtoState A)
    (outcome : Outcome A) :
    (((sendCommand st outcome).2.responses.map Prod.fst).contains
        (nextCommandId st.command_id) = false) ∧
    (sendCommand st outcome).1 =
      (match outcome with
       | .timeout => Except.error .responseTimeout
       | .resolved r =>
         if r.type = .ERROR then Except.error .commandFailed
         else Except.ok r) := by
  unfold sendCommand
  cases outcome with
  | timeout =>
    refine ⟨?_, rfl⟩
    simp [List.contains_eq_any_beq, List.any_eq, List.mem_filter]
  | resolved r =>
    by_cases hr : r.type = .ERROR <;>
      simp [hr, List.contains_eq_any_beq, List.any_eq, List.mem_filter]

/-- C4 counterexample: a frame whose header declares a command length of 5
while only 2 bytes remain after the 17-byte header does NOT make
`decode_message` fail: the Python slice `data[offset:offset + cmd_len]`
silently clips, and decoding succeeds with the shortened command `[97, 98]`.
The only length check in the code is `len(data) < header_size`. -/
theorem C4_truncated_sections_counterexample :
    decodeMessage loadsUnit ()
        (0 :: (packU32 7 ++ packU32 5 ++ packU32 0 ++ packU32 0 ++ [97, 98])) =
      Except.ok ⟨.COMMAND, 7, [97, 98], (), none⟩ ∧
    ([97, 98] : List Nat).length < 5 :=
  ⟨by rfl, by decide⟩

/-- C4 (amended): `decode_message` performs no truncation check on the
section lengths — only `len(data) < header_size` is checked.  For any frame
with a full header whose declared command length exceeds the remaining
bytes (with declared args and data lengths leaving nothing further to
read), whenever the clipped remainder is still valid UTF-8 (any ASCII
remainder, for instance), decoding SUCCEEDS and returns a message whose
command is the truncated remainder, whose args is the empty mapping (the
args slice is empty), and whose data is `None`.  When the clipped command
slice is NOT valid UTF-8, decoding does fail — but through the command
section's `UnicodeDecodeError → FlipperProtocolError` path
(`decodeMessage_invalid_utf8_example`), a property of the clipped bytes,
never through a `TruncatedFrame`-style length check. -/
theorem C4_truncated_sections_amended (A : Type)
    (loads : List Nat → Option A) (emptyArgs : A) (t : MessageType)
    (id clen alen : Nat) (tail : List Nat)
    (hid : id < 4294967296) (hclen : clen < 4294967296)
    (halen : alen < 4294967296) (htrunc : tail.length < clen)
    (hutf : validUtf8 tail = true) :
    decodeMessage loads emptyArgs
        (t.value :: (packU32 id ++ packU32 clen ++ packU32 alen ++
          packU32 0 ++ tail)) =
      Except.ok ⟨t, id, tail, emptyArgs, none⟩ := by
  simp only [packU32, List.cons_append, List.nil_append, List.append_assoc]
  simp only [decodeMessage, MessageType.ofValue_value,
    unpackU32_packU32 hid, unpackU32_packU32 hclen, unpackU32_packU32 halen,
    unpackU32_packU32 (show 0 < 4294967296 by decide)]
  rw [List.take_of_length_le (Nat.le_of_lt htrunc), hutf,
    List.drop_eq_nil_of_le (Nat.le_of_lt htrunc)]
  simp

/-- C4 witness: the amended statement at the counterexample's concrete
frame (ASCII remainder `"ab"`). -/
theorem C4_truncated_sections_witness :
    decodeMessage loadsUnit ()
        ((MessageType.COMMAND).value ::
          (packU32 7 ++ packU32 5 ++ packU32 0 ++ packU32 0 ++ [97, 98])) =
      Except.ok ⟨.COMMAND, 7, [97, 98], (), none⟩ :=
  C4_truncated_sections_amended Unit loadsUnit () .COMMAND 7 5 0 [97, 98]
    (by decide) (by decide) (by decide) (by decide) (by decide)

/-- The same over-declared frame with the single remaining byte `0xFF`,
which no UTF-8 sequence contains: the clipped command slice fails the
strict decode, so `decode_message` raises (`UnicodeDecodeError` caught as
`ValueError`, re-raised as `FlipperProtocolError`) — decoding with
truncated sections is partial in the command bytes, though the failure is
never a truncation check. -/
theorem decodeMessage_invalid_utf8_example :
    decodeMessage loadsUnit ()
        (0 :: (packU32 7 ++ packU32 5 ++ packU32 0 ++ packU32 0 ++ [255])) =
      Except.error "Failed to decode message: invalid utf-8 in command" := by
  rfl

/-- `ModulationType` enum of `subghz.py`. -/
inductive ModulationType where
  | AM
  | FM
  | ASK
  | FSK
  | OOK
  | PSK
deriving DecidableEq, Repr

/-- `DecodingType` enum of `subghz.py`. -/
inductive DecodingType where
  | manchester
  | differential
  | binary
  | pwm
  | raw
deriving DecidableEq, Repr

/-- `SubGHzProtocolInfo` dataclass.  Frequencies and rates are rationals
standing for the Python floats; `preamble` bytes as `List Nat`. -/
structure SubGHzProtocolInfo where
  name : String
  frequencies : List ℚ
  modulation : ModulationType
  bit_rate : ℚ
  deviation : Option ℚ
  preamble : Option (List Nat)
  decode_type : DecodingType
  min_repeats : Nat
  gap_limit : Option Nat
deriving DecidableEq, Repr

/-- The `"princeton"` entry of `SubGHzProtocolRegistry.PROTOCOLS`. -/
def princetonInfo : SubGHzProtocolInfo :=
  ⟨"Princeton", [43392/100], .ASK, 2000, none, none, .manchester, 2, none⟩

/-- The `"keeloq"` entry. -/
def keeloqInfo : SubGHzProtocolInfo :=
  ⟨"KeeLoq", [43392/100, 43442/100, 86835/100], .FSK, 1500, some 50000,
   none, .manchester, 2, none⟩

/-- The `"nice_flor_s"` entry. -/
def niceFlorSInfo : SubGHzProtocolInfo :=
  ⟨"Nice FLO", [43392/100], .AM, 1000, none, none, .manchester, 3, none⟩

/-- The `"chamberlain"` entry. -/
def chamberlainInfo : SubGHzProtocolInfo :=
  ⟨"Chamberlain", [300, 390], .OOK, 2000, none, none, .binary, 2,
   some 15000⟩

/-- `SubGHzProtocolRegistry.PROTOCOLS` as an association list in dict
insertion order (Python dicts preserve it). -/
def PROTOCOLS : List (String × SubGHzProtocolInfo) :=
  [("princeton", princetonInfo), ("keeloq", keeloqInfo),
   ("nice_flor_s", niceFlorSInfo), ("chamberlain", chamberlainInfo)]

/-- `cls.PROTOCOLS.values()` in insertion (catalog) order. -/
def subghzProtocolValues : List SubGHzProtocolInfo :=
  PROTOCOLS.map Prod.snd

/-- The inner loop of `get_protocols_for_frequency`: scan the entry's
frequency list, stopping (`break`) at the first frequency within
`tolerance` of `freq`; the comparison is `abs(protocol_freq - freq) <=
tolerance`, inclusive. -/
def hasFrequencyNear : List ℚ → ℚ → ℚ → Bool
  | [], _, _ => false
  | pf :: rest, freq, tolerance =>
    if |pf - freq| ≤ tolerance then true else hasFrequencyNear rest freq tolerance

/-- The outer loop of `get_protocols_for_frequency`: append each catalog
entry (at most once, thanks to the `break`) whose frequency list contains a
match. -/
def selectByFrequency (freq tolerance : ℚ) :
    List SubGHzProtocolInfo → List SubGHzProtocolInfo
  | [] => []
  | p :: rest =>
    if hasFrequencyNear p.frequencies freq tolerance then
      p :: selectByFrequency freq tolerance rest
    else
      selectByFrequency freq tolerance rest

/-- `SubGHzProtocolRegistry.get_protocols_for_frequency` (the Python default
tolerance is 0.1). -/
def getProtocolsForFrequency (freq tolerance : ℚ) : List SubGHzProtocolInfo :=
  selectByFrequency freq tolerance subghzProtocolValues

/-- `np.where(np.diff(binary.astype(int)) != 0)[0]` of
`SignalAnalyzer.extract_pulses`: ascending list of indices `i` with
`binary[i] ≠ binary[i+1]`, starting the count at `i`. -/
def transitionPointsAux : List Bool → Nat → List Nat
  | b0 :: b1 :: rest, i =>
    if b0 != b1 then i :: transitionPointsAux (b1 :: rest) (i + 1)
    else transitionPointsAux (b1 :: rest) (i + 1)
  | _, _ => []

/-- `SignalAnalyzer.extract_pulses`: threshold the amplitude `|sample|` to a
boolean sequence, list the transition indices, and emit the gaps between
consecutive transition indices; fewer than two transitions yield `[]`.
Samples are modelled by their (real) values, `|·|` being `np.abs`. -/
def extractPulses (samples : List ℚ) (threshold : ℚ) : List Nat :=
  let binary := samples.map fun s => if threshold < |s| then true else false
  let transition_points := transitionPointsAux binary 0
  if transition_points.length < 2 then []
  else List.zipWith (fun a b => a - b) transition_points.tail transition_points

/-- The keys of the `pulse_counts` dict of `detect_bit_rate` in insertion
order: the distinct pulse values, first occurrence first. -/
def firstDistinct : List Nat → List Nat
  | [] => []
  | p :: rest => p :: firstDistinct (rest.filter fun q => q ≠ p)
termination_by l => l.length
decreasing_by
  simpa using Nat.lt_succ_of_le (List.length_filter_le _ _)

/-- `max(pulse_counts.items(), key=lambda x: x[1])[0]`: the most frequent
pulse value; Python's `max` keeps the first maximal item, so ties break to
the first-encountered value. -/
def modeFirst (l : List Nat) : Nat :=
  match firstDistinct l with
  | [] => 0
  | k :: ks => ks.foldl (fun best x => if l.count best < l.count x then x else best) k

/-- `SignalAnalyzer.detect_bit_rate`: `0.0` on no pulses, else
`1000000 / base_length`. -/
def detectBitRate (pulses : List Nat) : ℚ :=
  if pulses = [] then 0 else 1000000 / (modeFirst pulses : ℚ)

/-- `min(pulses)` for a non-empty list (the Manchester clock estimate). -/
def listMin : List Nat → Nat
  | [] => 0
  | p :: rest => rest.foldl Nat.min p

/-- The `while i < len(pulses) - 1` walk of `decode_manchester`: take pulses
two at a time; a pair in which both pulses lie within `tolerance * clock`
of `clock` (inclusive) emits bit 1 when `p1 > p2` and 0 otherwise; any
other pair aborts the whole decode (`None`).  A single trailing pulse ends
the walk without being examined. -/
def pairBits (clock : Nat) (tolerance : ℚ) : List Nat → Option (List Nat)
  | p1 :: p2 :: rest =>
    if |(p1 : ℚ) - clock| ≤ tolerance * clock ∧
        |(p2 : ℚ) - clock| ≤ tolerance * clock then
      (pairBits clock tolerance rest).map fun bs =>
        (if p2 < p1 then 1 else 0) :: bs
    else none
  | _ => some []

/-- The bit-packing loop of `decode_manchester`: consecutive complete 8-bit
groups become bytes, most-significant bit first; a trailing group of fewer
than 8 bits is dropped. -/
def packBits : List Nat → List Nat
  | b0 :: b1 :: b2 :: b3 :: b4 :: b5 :: b6 :: b7 :: rest =>
    (((((((b0 * 2 + b1) * 2 + b2) * 2 + b3) * 2 + b4) * 2 + b5) * 2 + b6) * 2
        + b7) :: packBits rest
  | _ => []

/-- `SignalAnalyzer.decode_manchester` (the Python default tolerance is
0.2): `None` on fewer than two pulses, clock `min(pulses)`, all-or-nothing
pair walk, `None` on an empty bit list, else the packed bytes (possibly the
empty byte string `b''` when fewer than 8 bits accumulated). -/
def decodeManchester (pulses : List Nat) (tolerance : ℚ) : Option (List Nat) :=
  if pulses.length < 2 then none
  else
    match pairBits (listMin pulses) tolerance pulses with
    | none => none
    | some bits => if bits = [] then none else some (packBits bits)

/-- `SubGHzSignal` container.  `bit_rate` models `metadata['bit_rate']`, the
only metadata key the analyzed code writes. -/
structure SubGHzSignal where
  frequency : ℚ
  modulation : ModulationType
  raw_samples : List ℚ
  pulses : List Nat
  decoded_data : Option (List Nat)
  protocol : Option String
  bit_rate : Option ℚ
deriving DecidableEq, Repr

/-- The protocol-identification loop of `SubGHzSignal.analyze`: for each
candidate, if its modulation equals the signal's and its decode type is
Manchester, attempt `decode_manchester`; record `decoded_data` and
`protocol` and stop at the first truthy result (`if data:` — `None` and
`b''` both fall through). -/
def tryProtocols (s : SubGHzSignal) :
    List SubGHzProtocolInfo → SubGHzSignal
  | [] => s
  | info :: rest =>
    if info.modulation = s.modulation then
      if info.decode_type = .manchester then
        match decodeManchester s.pulses (1/5) with
        | some d =>
          if d = [] then tryProtocols s rest
          else { s with decoded_data := some d, protocol := some info.name }
        | none => tryProtocols s rest
      else tryProtocols s rest
    else tryProtocols s rest

/-- `SubGHzSignal.analyze`: no-op without samples; extract pulses (storing
them) and stop if none; record the estimated bit rate; walk the frequency
candidates. -/
def analyze (s : SubGHzSignal) : SubGHzSignal :=
  if s.raw_samples.length = 0 then s
  else
    let pulses := extractPulses s.raw_samples (1/2)
    let s1 := { s with pulses := pulses }
    if pulses = [] then s1
    else
      let s2 := { s1 with bit_rate := some (detectBitRate pulses) }
      tryProtocols s2 (getProtocolsForFrequency s.frequency (1/10))

/-- One candidate's contribution in the specification's wording of the
analyze loop: `some (data, name)` when the candidate's modulation matches,
its decode type is Manchester, and `decode_manchester` yields a non-empty
byte string; `none` otherwise. -/
def specProbe (m : ModulationType) (pulses : List Nat)
    (info : SubGHzProtocolInfo) : Option (List Nat × String) :=
  if info.modulation = m ∧ info.decode_type = .manchester then
    match decodeManchester pulses (1/5) with
    | some d => if d = [] then none else some (d, info.name)
    | none => none
  else none

/-- The specification's wording of the analyze loop, for comparison with
`tryProtocols`: the first candidate, in catalog order, whose modulation
matches and whose decode type is Manchester and for which
`decode_manchester` yields a non-empty byte string, together with that
result (first-match wins). -/
def specFirstManchesterHit (m : ModulationType) (pulses : List Nat)
    (cands : List SubGHzProtocolInfo) : Option (List Nat × String) :=
  cands.findSome? (specProbe m pulses)

theorem extractPulses_example : extractPulses [0, 0, 1, 1, 0, 0] (1/2) = [2] := by
  norm_num [extractPulses, transitionPointsAux]

/-- C5 counterexample: `decode_manchester([10,10,10,12])` with tolerance 0.2
does not return `None`.  The pair `(10, 12)` is inside the inclusive band:
`|12 - 10| = 2 ≤ 0.2 * 10 = 2` (exact in IEEE doubles too), so both pairs
decode, and the two accumulated bits are fewer than 8, so the packing loop
produces the empty byte string `b''` — a non-`None` (if falsy) result. -/
theorem C5_manchester_example_counterexample :
    decodeManchester [10, 10, 10, 12] (1/5) ≠ none := by
  norm_num [decodeManchester, pairBits, listMin]
  exact ⟨by simp, by simp⟩

/-- C5 (amended): `decode_manchester([10,10,10,12])` with tolerance 0.2
returns the empty byte string `b''` (not `None`): the pair `(10, 12)` lies
within the inclusive tolerance band around the clock 10
(`|12 - 10| = 2 ≤ 0.2 * 10`), the walk emits bits `[0, 0]`, and fewer than
8 bits pack into no byte at all. -/
theorem C5_manchester_example_amended :
    decodeManchester [10, 10, 10, 12] (1/5) = some [] := by
  norm_num [decodeManchester, pairBits, packBits, listMin]
  intro h
  simp at h

/-- C6 counterexample: `extract_pulses` on `[0,0,1,1,0,0]` with threshold
0.5 yields `[2]`, not `[2,2]`: the thresholded sequence
`[F,F,T,T,F,F]` has exactly two transitions (indices 1 and 3), and two
transition indices produce a single gap. -/
theorem C6_extract_pulses_counterexample :
    extractPulses [0, 0, 1, 1, 0, 0] (1/2) = [2] ∧
    ([2] : List Nat) ≠ [2, 2] :=
  ⟨extractPulses_example, by decide⟩

/-- C6 (amended): `extract_pulses` with threshold 0.5 applied to the
amplitude sample sequence `[0,0,1,1,0,0]` yields the pulse-length sequence
`[2]`: the gaps between consecutive members of the transition-index list
`[1, 3]`. -/
theorem C6_extract_pulses_amended :
    extractPulses [0, 0, 1, 1, 0, 0] (1/2) = [2] := by
  rw [extractPulses_example]

theorem hasFrequencyNear_eq_any (freq tolerance : ℚ) :
    ∀ fs : List ℚ, hasFrequencyNear fs freq tolerance =
      fs.any fun pf => decide (|pf - freq| ≤ tolerance)
  | [] => rfl
  | pf :: rest => by
    unfold hasFrequencyNear
    by_cases h : |pf - freq| ≤ tolerance <;>
      simp [h, hasFrequencyNear_eq_any freq tolerance rest]

theorem selectByFrequency_eq_filter (freq tolerance : ℚ) :
    ∀ l : List SubGHzProtocolInfo, selectByFrequency freq tolerance l =
      l.filter fun p => p.frequencies.any fun pf => decide (|pf - freq| ≤ tolerance)
  | [] => rfl
  | p :: rest => by
    unfold selectByFrequency
    rw [hasFrequencyNear_eq_any, selectByFrequency_eq_filter freq tolerance rest,
      List.filter_cons]

theorem subghzProtocolValues_nodup : subghzProtocolValues.Nodup := by
  simp [subghzProtocolValues, PROTOCOLS, List.nodup_cons, princetonInfo,
    keeloqInfo, niceFlorSInfo, chamberlainInfo]

/-- C9: for every frequency and tolerance, `get_protocols_for_frequency`
returns exactly the catalog entries having at least one listed frequency
within tolerance of the query (inclusive `≤`, via `abs(protocol_freq -
freq) <= tolerance`), in catalog order and each at most once: the result is
the order-preserving filter of the (duplicate-free) catalog, and in
particular duplicate-free itself — the inner `break` prevents an entry with
several matching frequencies from being appended twice. -/
theorem C9_candidates_for_frequency (freq tolerance : ℚ) :
    getProtocolsForFrequency freq tolerance =
      (subghzProtocolValues.filter fun p =>
        p.frequencies.any fun pf => decide (|pf - freq| ≤ tolerance)) ∧
    (getProtocolsForFrequency freq tolerance).Nodup := by
  have h := selectByFrequency_eq_filter freq tolerance subghzProtocolValues
  refine ⟨h, ?_⟩
  unfold getProtocolsForFrequency
  rw [h]
  exact subghzProtocolValues_nodup.filter _

theorem pairBits_append_single (clock : Nat) (tolerance : ℚ) :
    ∀ (l : List Nat), l.length % 2 = 0 → ∀ x : Nat,
      pairBits clock tolerance (l ++ [x]) = pairBits clock tolerance l
  | [], _, x => rfl
  | [p], h, x => by simp at h
  | p1 :: p2 :: l, h, x => by
    have hl : l.length % 2 = 0 := by
      simp only [List.length_cons] at h
      omega
    show pairBits clock tolerance (p1 :: p2 :: (l ++ [x])) = _
    unfold pairBits
    split
    · rw [pairBits_append_single clock tolerance l hl x]
    · rfl

/-- C10 counterexample: on the odd-length pulse list `[10, 10, 2]` the
decode result differs from the one on `[10, 10]` (its `dropLast`): the
trailing pulse 2, although never validated as part of a pair, becomes the
clock (`clock = min(pulses) = 2`), which throws the pair `(10, 10)` out of
the tolerance band and fails the decode, while `[10, 10]` decodes with
clock 10 to the empty byte string. -/
theorem C10_trailing_pulse_counterexample :
    decodeManchester [10, 10, 2] (1/5) = none ∧
    decodeManchester [10, 10] (1/5) = some [] ∧
    ([10, 10, 2] : List Nat).dropLast = [10, 10] := by
  refine ⟨?_, ?_, by decide⟩
  · norm_num [decodeManchester, pairBits, listMin]
  · norm_num [decodeManchester, pairBits, packBits, listMin]

/-- C10 (amended): for every pulse list of odd length at least 3 whose
removal of the final pulse does not change the minimum (`min(pulses)`, the
clock), `decode_manchester` returns the same result as on the list with the
final pulse removed: the `while i < len(pulses) - 1` walk never examines the
trailing unpaired pulse.  The extra minimum-preservation hypothesis is
necessary: the trailing pulse does participate in the clock computation, as
the counterexample `[10, 10, 2]` shows. -/
theorem C10_trailing_pulse_amended (l : List Nat) (x : Nat) (tolerance : ℚ)
    (heven : l.length % 2 = 0) (hlen : 2 ≤ l.length)
    (hmin : listMin (l ++ [x]) = listMin l) :
    decodeManchester (l ++ [x]) tolerance = decodeManchester l tolerance ∧
    (l ++ [x]).dropLast = l := by
  refine ⟨?_, List.dropLast_concat⟩
  unfold decodeManchester
  rw [if_neg (by simp; omega), if_neg (by omega), hmin,
    pairBits_append_single (listMin l) tolerance l heven x]

/-- C10 witness: the amended statement at the concrete odd-length list
`[10, 10, 12]`, whose minimum is unchanged by dropping the trailing 12. -/
theorem C10_trailing_pulse_witness :
    decodeManchester ([10, 10] ++ [12]) (1/5) =
      decodeManchester [10, 10] (1/5) ∧
    (([10, 10] : List Nat) ++ [12]).dropLast = [10, 10] :=
  C10_trailing_pulse_amended [10, 10] 12 (1/5) (by decide) (by decide)
    (by decide)

theorem tryProtocols_eq_specHit (s : SubGHzSignal) :
    ∀ cands : List SubGHzProtocolInfo, tryProtocols s cands =
      match specFirstManchesterHit s.modulation s.pulses cands with
      | some (d, n) => { s with decoded_data := some d, protocol := some n }
      | none => s
  | [] => rfl
  | info :: rest => by
    have ih := tryProtocols_eq_specHit s rest
    simp only [tryProtocols]
    by_cases h1 : info.modulation = s.modulation
    · by_cases h2 : info.decode_type = DecodingType.manchester
      · rw [if_pos h1, if_pos h2]
        cases hdm : decodeManchester s.pulses (1/5) with
        | none =>
          have hp : specProbe s.modulation s.pulses info = none := by
            unfold specProbe
            rw [if_pos ⟨h1, h2⟩, hdm]
          unfold specFirstManchesterHit
          rw [List.findSome?_cons, hp]
          exact ih
        | some d =>
          by_cases hd : d = []
          · have hp : specProbe s.modulation s.pulses info = none := by
              unfold specProbe
              rw [if_pos ⟨h1, h2⟩, hdm]
              exact if_pos hd
            have hcons : specFirstManchesterHit s.modulation s.pulses
                (info :: rest) =
                specFirstManchesterHit s.modulation s.pulses rest := by
              unfold specFirstManchesterHit
              rw [List.findSome?_cons, hp]
            rw [hcons]
            subst hd
            exact ih
          · have hp : specProbe s.modulation s.pulses info =
                some (d, info.name) := by
              unfold specProbe
              rw [if_pos ⟨h1, h2⟩, hdm]
              exact if_neg hd
            have hcons : specFirstManchesterHit s.modulation s.pulses
                (info :: rest) = some (d, info.name) := by
              unfold specFirstManchesterHit
              rw [List.findSome?_cons, hp]
            rw [hcons]
            simp [hd]
      · have hp : specProbe s.modulation s.pulses info = none := by
          unfold specProbe
          exact if_neg fun hc => h2 hc.2
        have hcons : specFirstManchesterHit s.modulation s.pulses
            (info :: rest) =
            specFirstManchesterHit s.modulation s.pulses rest := by
          unfold specFirstManchesterHit
          rw [List.findSome?_cons, hp]
        rw [if_pos h1, if_neg h2, hcons]
        exact ih
    · have hp : specProbe s.modulation s.pulses info = none := by
        unfold specProbe
        exact if_neg fun hc => h1 hc.1
      have hcons : specFirstManchesterHit s.modulation s.pulses
          (info :: rest) =
          specFirstManchesterHit s.modulation s.pulses rest := by
        unfold specFirstManchesterHit
        rw [List.findSome?_cons, hp]
      rw [if_neg h1, hcons]
      exact ih

/-- C8: `analyze`, on a signal with samples whose pulse extraction is
non-empty, records `decoded_data` and the candidate's protocol name exactly
according to the first-match rule: among `candidates_for_frequency` in
catalog order, only candidates whose modulation equals the signal's are
considered, only those with Manchester decode type attempt
`decode_manchester`, the first candidate for which the decode is truthy (a
non-empty byte string) wins and the walk stops; when no candidate decodes,
`decoded_data` and `protocol` keep their previous (unset) values — `analyze`
is a total function and never raises. -/
theorem C8_analyze_first_match (s : SubGHzSignal)
    (h1 : s.raw_samples ≠ [])
    (h2 : extractPulses s.raw_samples (1/2) ≠ []) :
    ((analyze s).decoded_data, (analyze s).protocol) =
      match specFirstManchesterHit s.modulation
          (extractPulses s.raw_samples (1/2))
          (getProtocolsForFrequency s.frequency (1/10)) with
      | some (d, n) => (some d, some n)
      | none => (s.decoded_data, s.protocol) := by
  have hlen : ¬s.raw_samples.length = 0 := by
    simpa using h1
  simp only [analyze]
  rw [if_neg hlen, if_neg h2, tryProtocols_eq_specHit]
  cases hm : specFirstManchesterHit s.modulation
      (extractPulses s.raw_samples (1/2))
      (getProtocolsForFrequency s.frequency (1/10)) with
  | none => simp [hm]
  | some r =>
    obtain ⟨d, n⟩ := r
    simp [hm]

/-- Concrete signal for the C8 witness: frequency 433.92 MHz, ASK,
samples `[0,0,1,1,0,0]`. -/
def sigExample : SubGHzSignal :=
  ⟨43392/100, .ASK, [0, 0, 1, 1, 0, 0], [], none, none, none⟩

theorem getProtocols_433_92 :
    getProtocolsForFrequency (43392/100) (1/10) =
      [princetonInfo, keeloqInfo, niceFlorSInfo] := by
  norm_num [getProtocolsForFrequency, subghzProtocolValues, PROTOCOLS,
    selectByFrequency, hasFrequencyNear, princetonInfo, keeloqInfo,
    niceFlorSInfo, chamberlainInfo]
  refine ⟨?_, ?_⟩ <;> rw [abs_of_nonneg (by norm_num)] <;> norm_num

/-- C8 witness: on `sigExample` the extracted pulse list `[2]` decodes under
no candidate (Princeton matches modulation and decode type, but
`decode_manchester([2])` is `None`), so `analyze` leaves `decoded_data` and
`protocol` unset. -/
theorem C8_analyze_first_match_witness :
    ((analyze sigExample).decoded_data, (analyze sigExample).protocol) =
      (none, none) := by
  refine (C8_analyze_first_match sigExample ?_ ?_).trans ?_
  · simp [sigExample]
  · simp only [sigExample]
    rw [extractPulses_example]
    simp
  · simp only [sigExample]
    rw [extractPulses_example, getProtocols_433_92]
    norm_num [specFirstManchesterHit, List.findSome?_cons, specProbe,
      princetonInfo, keeloqInfo, niceFlorSInfo, decodeManchester]

end Hydra
